import Mathlib

/-!
Verification of the bread-n-butter parser-combinator core.

Shallow embedding of the TypeScript sources:
  src/source-location.ts  (SourceLocation.add)
  src/context.ts          (Context.move / ok / fail / withLocation)
  src/action-result.ts    (ActionOK / ActionFail / merge / union)
  src/parse-result.ts     (ParseOK / ParseFail)
  src/bread-n-butter.ts   (Parser.parse / and / or / many1 / many0,
                           eof, str, ok, fail, match, lazy)

JavaScript strings are modelled as lists of UTF-16 code units
(`List Nat`); string iteration (`for (const ch of s)`) is modelled by
grouping surrogate pairs into code points.  JavaScript numbers holding
indices / line / column values are modelled as `Int` (the furthest
sentinel is `-1`).  `Array.prototype.slice` on in-range arguments is
modelled by `jsSlice` with the same clamping behaviour.  Thrown
JavaScript `Error`s (infinite-loop detection, flag validation) are
modelled with `Except JsError`.
-/

/-- A JavaScript string: its sequence of UTF-16 code units. -/
abbrev Str := List Nat

namespace Bnb

/-- Tracks `index`, `line`, `column` of `src/source-location.ts`. -/
structure SourceLocation where
  index : Int
  line : Int
  column : Int
deriving Repr, DecidableEq

/-- High-surrogate test for UTF-16 code-point iteration. -/
def isHighSurrogate (u : Nat) : Bool := 0xD800 ≤ u && u ≤ 0xDBFF

/-- Low-surrogate test for UTF-16 code-point iteration. -/
def isLowSurrogate (u : Nat) : Bool := 0xDC00 ≤ u && u ≤ 0xDFFF

/-- Groups a code-unit sequence into the code points visited by the
JavaScript string iteration protocol: a high surrogate followed by a low
surrogate forms one two-unit character, everything else is a one-unit
character. -/
def codePointGroups : List Nat → List (List Nat)
  | [] => []
  | [u] => [[u]]
  | u :: v :: rest =>
    if isHighSurrogate u && isLowSurrogate v then
      [u, v] :: codePointGroups rest
    else
      [u] :: codePointGroups (v :: rest)

/-- The code units of the one-character string of a newline. -/
def newline : Str := [10]

/-- One step of the loop body of `SourceLocation.add`
(src/source-location.ts lines 32-48): `index += ch.length`; a newline
increments `line` and resets `column` to 1, anything else increments
`column`. -/
def SourceLocation.addStep (l : SourceLocation) (ch : List Nat) : SourceLocation :=
  { index := l.index + ch.length
    line := if ch = newline then l.line + 1 else l.line
    column := if ch = newline then 1 else l.column + 1 }

/-- Embeds `SourceLocation.add(chunk)`: fold the loop body over the code
points of the chunk. -/
def SourceLocation.add (l : SourceLocation) (chunk : Str) : SourceLocation :=
  (codePointGroups chunk).foldl SourceLocation.addStep l

/-- Embeds `String.prototype.slice(start, stop)` for integer arguments:
negative indices count from the end, both are clamped to `[0, length]`,
and an empty string results when `stop ≤ start`. -/
def jsSlice (s : Str) (start stop : Int) : Str :=
  let len : Int := s.length
  let a := if start < 0 then max (len + start) 0 else min start len
  let b := if stop < 0 then max (len + stop) 0 else min stop len
  (s.take b.toNat).drop a.toNat

/-- Embeds the `Context` class of src/context.ts. -/
structure Context where
  input : Str
  location : SourceLocation
deriving Repr, DecidableEq

/-- Embeds `ActionResult<A> = ActionOK<A> | ActionFail` of
src/action-result.ts.  `ok` carries `location`, `value`, `furthest`,
`expected`; `fail` carries `furthest`, `expected`. -/
inductive ActionResult (A : Type) where
  | ok (location : SourceLocation) (value : A) (furthest : SourceLocation)
      (expected : List Str)
  | fail (furthest : SourceLocation) (expected : List Str)
deriving Repr, DecidableEq

/-- Projection of the `furthest` field shared by both variants. -/
def ActionResult.furthest {A : Type} : ActionResult A → SourceLocation
  | .ok _ _ f _ => f
  | .fail f _ => f

/-- Projection of the `expected` field shared by both variants. -/
def ActionResult.expected {A : Type} : ActionResult A → List Str
  | .ok _ _ _ e => e
  | .fail _ e => e

/-- Embeds the `isOK()` methods. -/
def ActionResult.isOK {A : Type} : ActionResult A → Bool
  | .ok _ _ _ _ => true
  | .fail _ _ => false

/-- Embeds the JS `Set`-based deduplication inside `union`
(`new Set([...a, ...b])` keeps the first occurrence of each element). -/
def jsSetDedup : List Str → List Str
  | [] => []
  | x :: xs => x :: jsSetDedup (xs.filter (fun y => y ≠ x))
termination_by l => l.length
decreasing_by
  exact Nat.lt_succ_of_le (List.length_filter_le _ _)

/-- Embeds `union` of src/action-result.ts lines 64-66:
`[...new Set([...a, ...b])].sort()`.  The default `Array.prototype.sort`
comparator on strings is the lexicographic order on code units, which is
the lexicographic `LinearOrder` on `List Nat`. -/
def union (a b : List Str) : List Str :=
  List.insertionSort (· ≤ ·) (jsSetDedup (a ++ b))

/-- Embeds the free function `merge(a, b)` of src/action-result.ts
lines 50-62. -/
def merge {A B : Type} (a : ActionResult A) (b : ActionResult B) : ActionResult A :=
  if a.furthest.index > b.furthest.index then a
  else
    let expected :=
      if a.furthest.index = b.furthest.index then union a.expected b.expected
      else b.expected
    match a with
    | .ok loc v _ _ => .ok loc v b.furthest expected
    | .fail _ _ => .fail b.furthest expected

/-- Embeds the method `a.merge(b)` of both `ActionOK` and `ActionFail`,
which is `merge(b, this)`. -/
def ActionResult.merge {A B : Type} (a : ActionResult A) (b : ActionResult B) :
    ActionResult B :=
  Bnb.merge b a

/-- The `new SourceLocation(-1, -1, -1)` sentinel used as the furthest
position of a fresh success. -/
def sentinelLocation : SourceLocation := ⟨-1, -1, -1⟩

/-- Embeds `Context.withLocation`. -/
def Context.withLocation (c : Context) (l : SourceLocation) : Context :=
  ⟨c.input, l⟩

/-- Embeds `Context.move` of src/context.ts lines 43-51, including the
early return of the very same location when the index is unchanged. -/
def Context.move (c : Context) (index : Int) : SourceLocation :=
  if index = c.location.index then c.location
  else c.location.add (jsSlice c.input c.location.index index)

/-- Embeds `Context.ok` of src/context.ts lines 70-77. -/
def Context.ok {A : Type} (c : Context) (index : Int) (value : A) : ActionResult A :=
  .ok (c.move index) value sentinelLocation []

/-- Embeds `Context.fail` of src/context.ts lines 94-96. -/
def Context.fail {A : Type} (c : Context) (index : Int) (expected : List Str) :
    ActionResult A :=
  .fail (c.move index) expected

/-- Embeds `ParseResult<A> = ParseOK<A> | ParseFail` of
src/parse-result.ts. -/
inductive ParseResult (A : Type) where
  | ok (value : A)
  | fail (location : SourceLocation) (expected : List Str)
deriving Repr, DecidableEq

/-- Embeds the `Parser` class: a wrapped parsing action. -/
structure Parser (A : Type) where
  action : Context → ActionResult A

/-- Embeds `Parser.and` of src/bread-n-butter.ts lines 79-92. -/
def Parser.and {A B : Type} (p : Parser A) (q : Parser B) : Parser (A × B) :=
  ⟨fun context =>
    match p.action context with
    | .fail f e => .fail f e
    | .ok aloc av afur aexp =>
      match (ActionResult.ok aloc av afur aexp).merge
          (q.action (context.withLocation aloc)) with
      | .ok bloc bv bfur bexp =>
        (ActionResult.ok bloc bv bfur bexp).merge
          (context.ok bloc.index (av, bv))
      | .fail bf be => .fail bf be⟩

/-- Embeds `Parser.or` of src/bread-n-butter.ts lines 98-106. -/
def Parser.or {A : Type} (p q : Parser A) : Parser A :=
  ⟨fun context =>
    match p.action context with
    | .ok l v f e => .ok l v f e
    | .fail f e => (ActionResult.fail f e : ActionResult A).merge (q.action context)⟩

/-- The code units of the string of the eof expectation used by the
source (60 = LT sign, 69 = E, 79 = O, 70 = F, 62 = GT sign). -/
def eofString : Str := [60, 69, 79, 70, 62]

/-- Embeds `eof` of src/bread-n-butter.ts lines 442-447. -/
def eof : Parser Str :=
  ⟨fun context =>
    if context.location.index < (context.input.length : Int) then
      context.fail context.location.index [eofString]
    else
      context.ok context.location.index eofString⟩

/-- Embeds `Parser.parse` of src/bread-n-butter.ts lines 49-57. -/
def Parser.parse {A : Type} (p : Parser A) (input : Str) : ParseResult A :=
  let location : SourceLocation := ⟨0, 1, 1⟩
  let context : Context := ⟨input, location⟩
  match (p.and eof).action context with
  | .ok _ value _ _ => .ok value.1
  | .fail furthest expected => .fail furthest expected

/-- Embeds the `ok(value)` parser constructor. -/
def ok {A : Type} (value : A) : Parser A :=
  ⟨fun context => context.ok context.location.index value⟩

/-- Embeds the `fail(expected)` parser constructor of
src/bread-n-butter.ts lines 419-423. -/
def fail {A : Type} (expected : List Str) : Parser A :=
  ⟨fun context => context.fail context.location.index expected⟩

/-- Embeds `str(string)` of src/bread-n-butter.ts lines 450-459. -/
def str (s : Str) : Parser Str :=
  ⟨fun context =>
    let start := context.location.index
    let stop := start + (s.length : Int)
    if jsSlice context.input start stop = s then context.ok stop s
    else context.fail start [s]⟩

/-- Thrown JavaScript errors of the combinator core: the infinite-loop
guard of many1 and the construction-time regexp-flag validation. -/
inductive JsError where
  | infiniteLoop
  | unsupportedFlag
deriving Repr, DecidableEq

/-- Embeds the while loop of `Parser.many1` (src/bread-n-butter.ts lines
208-224) as a fuel-indexed recursion; `none` means the fuel ran out,
`some (.error .infiniteLoop)` models the thrown `Error`, and
`some (.ok r)` the returned action result. -/
def Parser.many1Go {A : Type} (p : Parser A) :
    Nat → Context → List A → ActionResult A →
    Option (Except JsError (ActionResult (List A)))
  | 0, _, _, _ => none
  | Nat.succ fuel, context, items, result =>
    match result with
    | .fail f e =>
      some (.ok ((ActionResult.fail f e : ActionResult A).merge
        (context.ok context.location.index items)))
    | .ok loc v fur exp =>
      let items := items ++ [v]
      if context.location.index = loc.index then
        some (.error .infiniteLoop)
      else
        let context := context.withLocation loc
        p.many1Go fuel context items
          ((ActionResult.ok loc v fur exp).merge (p.action context))

/-- Embeds `Parser.many1`: run the loop from the incoming context with an
empty item list, seeded with a first run of the parser. -/
def Parser.many1 {A : Type} (p : Parser A) (fuel : Nat) (context : Context) :
    Option (Except JsError (ActionResult (List A))) :=
  p.many1Go fuel context [] (p.action context)

/-- Embeds `Parser.many0` = `this.many1().or(ok([]))` (src lines
200-202); a thrown error inside many1 propagates out of `or`
uncaught, an ordinary failure backtracks to `ok([])`. -/
def Parser.many0 {A : Type} (p : Parser A) (fuel : Nat) (context : Context) :
    Option (Except JsError (ActionResult (List A))) :=
  match p.many1 fuel context with
  | none => none
  | some (.error e) => some (.error e)
  | some (.ok r) =>
    match r with
    | .ok l v f e => some (.ok (ActionResult.ok l v f e))
    | .fail f e =>
      some (.ok ((ActionResult.fail f e : ActionResult (List A)).merge
        ((Bnb.ok ([] : List A)).action context)))

/-- Abstract model of a JavaScript `RegExp` value: `source` and `flags`
hold its textual parts, and `exec flags input start` gives the anchored
(sticky) match length, if any, of a regexp rebuilt from the same source
with the given flag string and `lastIndex = start`. -/
structure JsRegExp where
  exec : Str → Str → Int → Option Nat
  flags : Str
  source : Str

/-- Code-unit test for the regexp flags accepted by `match`:
105 = i (ignoreCase), 115 = s (dotAll), 109 = m (multiline),
117 = u (unicode). -/
def flagAllowed (f : Nat) : Bool := f = 105 || f = 115 || f = 109 || f = 117

/-- Embeds `String(regexp)`: a slash (47), the source, a slash, the
flags. -/
def regExpToString (r : JsRegExp) : Str := [47] ++ r.source ++ [47] ++ r.flags

/-- Embeds the parsing action built by `match` (src/bread-n-butter.ts
lines 825-838): the sticky regexp is rebuilt from `regexp.source` with
flag string "iy" when `regexp.ignoreCase` holds and "y" otherwise
(121 = y), so the s / m / u flags of the original regexp are not passed
on. -/
def matchAction (r : JsRegExp) : Parser Str :=
  ⟨fun context =>
    let stickyFlags : Str := if 105 ∈ r.flags then [105, 121] else [121]
    let start := context.location.index
    match r.exec stickyFlags context.input start with
    | some n =>
      let stop := start + (n : Int)
      context.ok stop (jsSlice context.input start stop)
    | none => context.fail start [regExpToString r]⟩

/-- Embeds `match(regexp)` including the construction-time flag
validation loop (src/bread-n-butter.ts lines 811-824): any flag other
than i, s, m, u throws. -/
def matchRe (r : JsRegExp) : Except JsError (Parser Str) :=
  if r.flags.all flagAllowed then .ok (matchAction r) else .error .unsupportedFlag

/-- Modelled from the spec: the parsing action the pattern-matcher claim
describes, in which the regexp is matched anchored at the current offset
"with its given flags" — `exec` receives `r.flags` unchanged instead of
the reduced "iy" / "y" flag string used by the source. -/
def matchSpecAction (r : JsRegExp) : Parser Str :=
  ⟨fun context =>
    let start := context.location.index
    match r.exec r.flags context.input start with
    | some n =>
      let stop := start + (n : Int)
      context.ok stop (jsSlice context.input start stop)
    | none => context.fail start [regExpToString r]⟩

/-- Line-terminator test of the JavaScript regexp dot: newline, carriage
return, line separator, paragraph separator. -/
def isLineTerminator (u : Nat) : Bool := u = 10 || u = 13 || u = 8232 || u = 8233

/-- Concrete engine for the regexp source "." (one dot): anchored at
`start` it matches exactly one code unit, except a line terminator when
the dotAll flag s (115) is absent.  This is the documented ECMAScript
semantics of the dot pattern, used to instantiate `JsRegExp` on a
concrete failing input. -/
def dotExec (flags : Str) (input : Str) (start : Int) : Option Nat :=
  if start < 0 then none
  else
    match input.drop start.toNat with
    | [] => none
    | u :: _ => if 115 ∈ flags || !(isLineTerminator u) then some 1 else none

/-- The concrete regexp value of the literal /./s: source "." (46),
flags "s" (115). -/
def dotAllRegExp : JsRegExp := ⟨dotExec, [115], [46]⟩

/-- Embeds the one-time self-patching resolution of `lazy`
(src/bread-n-butter.ts lines 490-501) as explicit state threading at
the granularity of one `parse` call: `none` is the unresolved state in
which invoking the parser first evaluates the thunk and stores the
resolved parser, `some q` the resolved state which reuses `q`. -/
def lazyParse {A : Type} (fn : Unit → Parser A) (st : Option (Parser A)) (s : Str) :
    ParseResult A × Option (Parser A) :=
  match st with
  | none => ((fn ()).parse s, some (fn ()))
  | some q => (q.parse s, some q)

/-- The location invariant of claim C10: a location into `input` has an
index between 0 and the input length and 1-based line and column. -/
def LocInv (input : Str) (l : SourceLocation) : Prop :=
  0 ≤ l.index ∧ l.index ≤ (input.length : Int) ∧ 1 ≤ l.line ∧ 1 ≤ l.column

instance (input : Str) (l : SourceLocation) : Decidable (LocInv input l) := by
  unfold LocInv
  infer_instance

/-- Boolean check that a list of strings is strictly sorted, hence
sorted and duplicate-free. -/
def sortedDedup : List Str → Bool
  | [] => true
  | [_] => true
  | x :: y :: rest => (decide (x < y)) && sortedDedup (y :: rest)

/-- Statement-side helper for claim C2: keep a result's tag, value and
resume position but substitute the given furthest location and
expectations. -/
def ActionResult.withFE {B : Type} : ActionResult B → SourceLocation → List Str → ActionResult B
  | .ok l v _ _, f, e => .ok l v f e
  | .fail _ _, f, e => .fail f e

@[simp]
theorem ActionResult.furthest_ok {A : Type} (l : SourceLocation) (v : A)
    (f : SourceLocation) (e : List Str) :
    (ActionResult.ok l v f e).furthest = f := rfl

@[simp]
theorem ActionResult.furthest_fail {A : Type} (f : SourceLocation) (e : List Str) :
    (ActionResult.fail f e : ActionResult A).furthest = f := rfl

@[simp]
theorem ActionResult.expected_ok {A : Type} (l : SourceLocation) (v : A)
    (f : SourceLocation) (e : List Str) :
    (ActionResult.ok l v f e).expected = e := rfl

@[simp]
theorem ActionResult.expected_fail {A : Type} (f : SourceLocation) (e : List Str) :
    (ActionResult.fail f e : ActionResult A).expected = e := rfl

theorem mem_jsSetDedup (x : Str) : ∀ l : List Str, x ∈ jsSetDedup l ↔ x ∈ l := by
  intro l
  induction l using jsSetDedup.induct with
  | case1 => simp [jsSetDedup]
  | case2 y ys ih =>
    rw [jsSetDedup]
    simp only [List.mem_cons, ih, List.mem_filter]
    constructor
    · rintro (rfl | ⟨h, _⟩)
      · exact Or.inl rfl
      · exact Or.inr h
    · rintro (rfl | h)
      · exact Or.inl rfl
      · by_cases hxy : x = y
        · exact Or.inl hxy
        · exact Or.inr ⟨h, by simpa using hxy⟩

theorem nodup_jsSetDedup : ∀ l : List Str, (jsSetDedup l).Nodup := by
  intro l
  induction l using jsSetDedup.induct with
  | case1 => simp [jsSetDedup]
  | case2 y ys ih =>
    rw [jsSetDedup]
    refine List.nodup_cons.2 ⟨?_, ih⟩
    intro hmem
    rcases (mem_jsSetDedup y _).1 hmem with h
    simp at h

theorem mem_union (x : Str) (a b : List Str) : x ∈ union a b ↔ x ∈ a ∨ x ∈ b := by
  unfold union
  rw [List.mem_insertionSort, mem_jsSetDedup, List.mem_append]

theorem sorted_union (a b : List Str) : List.Sorted (· ≤ ·) (union a b) :=
  List.sorted_insertionSort _ _

theorem nodup_union (a b : List Str) : (union a b).Nodup :=
  ((List.perm_insertionSort _ _).nodup_iff).2 (nodup_jsSetDedup _)

theorem union_comm (a b : List Str) : union a b = union b a := by
  refine List.eq_of_perm_of_sorted ?_ (sorted_union a b) (sorted_union b a)
  refine (List.perm_ext_iff_of_nodup (nodup_union a b) (nodup_union b a)).2 ?_
  intro x
  rw [mem_union, mem_union, Or.comm]

theorem pairwise_lt_union (a b : List Str) : (union a b).Pairwise (· < ·) := by
  have hs := (sorted_union a b : (union a b).Pairwise (· ≤ ·))
  have hn : (union a b).Pairwise (· ≠ ·) := nodup_union a b
  exact (hs.and hn).imp fun h => lt_of_le_of_ne h.1 h.2

theorem sortedDedup_of_pairwise : ∀ l : List Str, l.Pairwise (· < ·) → sortedDedup l = true := by
  intro l
  induction l with
  | nil => intro _; rfl
  | cons x xs ih =>
    intro h
    match xs, h with
    | [], _ => rfl
    | y :: ys, h =>
      rw [sortedDedup]
      have h1 : x < y := (List.pairwise_cons.1 h).1 y (by simp)
      have h2 := ih (List.pairwise_cons.1 h).2
      simp [h1, h2]

theorem sortedDedup_union (a b : List Str) : sortedDedup (union a b) = true :=
  sortedDedup_of_pairwise _ (pairwise_lt_union a b)

/-- Claim C2: merging an already-known bookkeeping result `a` into a
just-computed result `b` (the method `a.merge(b)`, which calls
`merge(b, a)`) keeps `b`'s tag, value and resume position, while the
combined furthest and expectations are exactly `a`'s when `a.furthest`
is strictly further, the deduplicated union of both expectation lists
when the furthest offsets are equal, and exactly `b`'s when `b`'s
furthest is strictly further. -/
theorem merge_combines {A B : Type} (a : ActionResult A) (b : ActionResult B) :
    (a.furthest.index > b.furthest.index →
      a.merge b = b.withFE a.furthest a.expected) ∧
    (a.furthest.index = b.furthest.index →
      a.merge b = b.withFE a.furthest (union a.expected b.expected)) ∧
    (a.furthest.index < b.furthest.index → a.merge b = b) := by
  refine ⟨?_, ?_, ?_⟩ <;> intro h <;>
    cases b <;>
      simp only [ActionResult.merge, merge, ActionResult.withFE,
        ActionResult.furthest_ok, ActionResult.furthest_fail,
        ActionResult.expected_ok, ActionResult.expected_fail] at h ⊢ <;>
      split_ifs <;>
      first
        | (exfalso; omega)
        | rfl
        | rw [union_comm]

/-- Witness for claim C2: each of the three furthest-offset comparisons
discharged on a concrete pair of results. -/
theorem merge_combines_witness :
    ((ActionResult.fail ⟨2, 1, 3⟩ [[97]] : ActionResult Unit).merge
        (ActionResult.fail ⟨1, 1, 2⟩ [[98]] : ActionResult Unit) =
      (ActionResult.fail ⟨1, 1, 2⟩ [[98]] : ActionResult Unit).withFE ⟨2, 1, 3⟩ [[97]]) ∧
    ((ActionResult.fail ⟨1, 1, 2⟩ [[97]] : ActionResult Unit).merge
        (ActionResult.fail ⟨1, 1, 2⟩ [[98]] : ActionResult Unit) =
      (ActionResult.fail ⟨1, 1, 2⟩ [[98]] : ActionResult Unit).withFE ⟨1, 1, 2⟩
        (union [[97]] [[98]])) ∧
    ((ActionResult.fail ⟨0, 1, 1⟩ [[97]] : ActionResult Unit).merge
        (ActionResult.fail ⟨1, 1, 2⟩ [[98]] : ActionResult Unit) =
      (ActionResult.fail ⟨1, 1, 2⟩ [[98]] : ActionResult Unit)) :=
  ⟨(merge_combines (.fail ⟨2, 1, 3⟩ [[97]]) (.fail ⟨1, 1, 2⟩ [[98]])).1 (by decide),
   (merge_combines (.fail ⟨1, 1, 2⟩ [[97]]) (.fail ⟨1, 1, 2⟩ [[98]])).2.1 (by decide),
   (merge_combines (.fail ⟨0, 1, 1⟩ [[97]]) (.fail ⟨1, 1, 2⟩ [[98]])).2.2 (by decide)⟩

/-- Claim C3: `or(p, q)` returns `p`'s result unchanged when `p`
succeeds; when `p` fails, `q` is run from the same original context and
the result is `merge(p's failure, q's result)`, so when both attempts
fail the reported furthest failure is the further of the two failure
positions, with the expectation lists unioned (as sets) when the two
failure offsets are equal. -/
theorem or_backtracks {A : Type} (p q : Parser A) (context : Context) :
    (∀ l v f e, p.action context = .ok l v f e →
      (p.or q).action context = p.action context) ∧
    (∀ f e, p.action context = .fail f e →
      (p.or q).action context =
        (ActionResult.fail f e : ActionResult A).merge (q.action context) ∧
      ∀ g e2, q.action context = .fail g e2 →
        (p.or q).action context =
          .fail (if g.index > f.index then g else f)
            (if g.index > f.index then e2
             else if g.index = f.index then union e2 e else e) ∧
          (g.index = f.index →
            ∀ x, x ∈ union e2 e ↔ x ∈ e ∨ x ∈ e2)) := by
  constructor
  · intro l v f e h
    simp [Parser.or, h]
  · intro f e h
    constructor
    · simp [Parser.or, h]
    · intro g e2 h2
      constructor
      · simp only [Parser.or, h, h2, ActionResult.merge, merge,
          ActionResult.furthest_fail, ActionResult.expected_fail]
        split_ifs <;> rfl
      · intro _ x
        rw [mem_union, Or.comm]

/-- Witness for claim C3: concrete success, failure and equal-offset
cases of ordered choice. -/
theorem or_backtracks_witness :
    (((Bnb.str [97]).or (Bnb.str [98])).action ⟨[97], ⟨0, 1, 1⟩⟩ =
      (Bnb.str [97]).action ⟨[97], ⟨0, 1, 1⟩⟩) ∧
    (((Bnb.str [98]).or (Bnb.str [99])).action ⟨[97], ⟨0, 1, 1⟩⟩ =
      .fail (if (⟨0, 1, 1⟩ : SourceLocation).index > (⟨0, 1, 1⟩ : SourceLocation).index
          then (⟨0, 1, 1⟩ : SourceLocation) else ⟨0, 1, 1⟩)
        (if (⟨0, 1, 1⟩ : SourceLocation).index > (⟨0, 1, 1⟩ : SourceLocation).index
          then [[99]]
          else if (⟨0, 1, 1⟩ : SourceLocation).index = (⟨0, 1, 1⟩ : SourceLocation).index
            then union [[99]] [[98]] else [[98]])) :=
  ⟨(or_backtracks (Bnb.str [97]) (Bnb.str [98]) ⟨[97], ⟨0, 1, 1⟩⟩).1
      ⟨1, 1, 2⟩ [97] sentinelLocation [] (by decide),
   (((or_backtracks (Bnb.str [98]) (Bnb.str [99]) ⟨[97], ⟨0, 1, 1⟩⟩).2
      ⟨0, 1, 1⟩ [[98]] (by decide)).2 ⟨0, 1, 1⟩ [[99]] (by decide)).1⟩

/-- Claim C1: `parse(p, s)` builds an initial context at offset 0, line
1, column 1 (the context in the hypothesis), runs `p` followed by the
end-of-input check, and when `p`'s action consumes the whole input it
succeeds holding only `p`'s value; whenever `p`'s action matches only a
strict prefix of `s`, `parse(p, s)` returns a failure even though `p`'s
own action succeeded on the prefix. -/
theorem parse_full_consumption {A : Type} (p : Parser A) (s : Str)
    (loc : SourceLocation) (v : A) (fur : SourceLocation) (exp : List Str)
    (h : p.action ⟨s, ⟨0, 1, 1⟩⟩ = .ok loc v fur exp) :
    (loc.index = (s.length : Int) → p.parse s = .ok v) ∧
    (loc.index < (s.length : Int) → ∃ floc fexp, p.parse s = .fail floc fexp) := by
  constructor
  · intro hlen
    have heof : Bnb.eof.action (Context.withLocation ⟨s, ⟨0, 1, 1⟩⟩ loc) =
        .ok loc eofString sentinelLocation [] := by
      simp [Bnb.eof, Context.withLocation, Context.ok, Context.move, hlen]
    have hb : ∃ bf be,
        (ActionResult.ok loc v fur exp).merge
          (Bnb.eof.action (Context.withLocation ⟨s, ⟨0, 1, 1⟩⟩ loc)) =
        .ok loc eofString bf be := by
      rw [heof]
      unfold ActionResult.merge merge
      split_ifs <;> exact ⟨_, _, rfl⟩
    obtain ⟨bf, be, hb⟩ := hb
    have hc : ∃ cf ce,
        (ActionResult.ok loc eofString bf be).merge
          ((⟨s, ⟨0, 1, 1⟩⟩ : Context).ok loc.index (v, eofString)) =
        .ok ((⟨s, ⟨0, 1, 1⟩⟩ : Context).move loc.index) (v, eofString) cf ce := by
      unfold ActionResult.merge merge Context.ok
      split_ifs <;> exact ⟨_, _, rfl⟩
    obtain ⟨cf, ce, hc⟩ := hc
    simp only [Parser.parse, Parser.and, h, hb, hc]
  · intro hlen
    have heof : Bnb.eof.action (Context.withLocation ⟨s, ⟨0, 1, 1⟩⟩ loc) =
        .fail loc [eofString] := by
      simp [Bnb.eof, Context.withLocation, Context.fail, Context.move, hlen]
    have hb : ∃ bf be,
        (ActionResult.ok loc v fur exp).merge
          (Bnb.eof.action (Context.withLocation ⟨s, ⟨0, 1, 1⟩⟩ loc)) =
        .fail bf be := by
      rw [heof]
      unfold ActionResult.merge merge
      split_ifs <;> exact ⟨_, _, rfl⟩
    obtain ⟨bf, be, hb⟩ := hb
    refine ⟨bf, be, ?_⟩
    simp only [Parser.parse, Parser.and, h, hb]

/-- Witness for claim C1: the literal-text parser of the one-character
string of the letter a matches only a strict prefix of the two-character
input, so the whole parse fails, while on the exactly matching input it
succeeds with only the parser's value. -/
theorem parse_full_consumption_witness :
    (∃ floc fexp, (Bnb.str [97]).parse [97, 98] = .fail floc fexp) ∧
    (Bnb.str [97]).parse [97] = .ok [97] :=
  ⟨(parse_full_consumption (Bnb.str [97]) [97, 98] ⟨1, 1, 2⟩ [97]
      sentinelLocation [] (by decide)).2 (by decide),
   (parse_full_consumption (Bnb.str [97]) [97] ⟨1, 1, 2⟩ [97]
      sentinelLocation [] (by decide)).1 (by decide)⟩

/-- Claim C4: when an iteration of many1 succeeds without advancing the
position (the successful result's index equals the index before the
iteration), the loop throws the fatal infinite-loop error — a thrown
`Error`, distinct by construction from an ordinary parse failure — and
never returns a result; through `many0 = many1().or(ok([]))` the same
thrown error propagates, so no empty or short sequence is returned
either. -/
theorem many1_zero_length_throws {A : Type} (p : Parser A) (fuel : Nat)
    (context : Context) (items : List A) (loc : SourceLocation) (v : A)
    (fur : SourceLocation) (exp : List Str)
    (hzero : context.location.index = loc.index) :
    (p.many1Go (fuel + 1) context items (.ok loc v fur exp) =
      some (.error .infiniteLoop)) ∧
    (p.action context = .ok loc v fur exp →
      p.many1 (fuel + 1) context = some (.error .infiniteLoop) ∧
      p.many0 (fuel + 1) context = some (.error .infiniteLoop)) := by
  have hgo : p.many1Go (fuel + 1) context items (.ok loc v fur exp) =
      some (.error .infiniteLoop) := by
    rw [Parser.many1Go]
    simp [hzero]
  refine ⟨hgo, ?_⟩
  intro haction
  have h1 : p.many1 (fuel + 1) context = some (.error .infiniteLoop) := by
    rw [Parser.many1, haction, Parser.many1Go]
    simp [hzero]
  refine ⟨h1, ?_⟩
  rw [Parser.many0, h1]

/-- Witness for claim C4: repeating the empty-string literal parser over
a non-empty input throws the infinite-loop error from both many1 and
many0. -/
theorem many1_zero_length_throws_witness :
    (Bnb.str []).many1 5 ⟨[97], ⟨0, 1, 1⟩⟩ = some (.error .infiniteLoop) ∧
    (Bnb.str []).many0 5 ⟨[97], ⟨0, 1, 1⟩⟩ = some (.error .infiniteLoop) :=
  (many1_zero_length_throws (Bnb.str []) 4 ⟨[97], ⟨0, 1, 1⟩⟩ [] ⟨0, 1, 1⟩ []
      sentinelLocation [] (by decide)).2 (by decide)

/-- Counterexample to claim C5 as stated: the end-of-input parser does
fail when input remains, but its expectation string is the five
characters of the angle-bracketed EOF marker, not the twelve characters
of the phrase end-of-input spelled with spaces. -/
theorem eof_expectation_counterexample :
    Bnb.eof.action ⟨[97], ⟨0, 1, 1⟩⟩ = .fail ⟨0, 1, 1⟩ [eofString] ∧
    eofString ≠ [101, 110, 100, 32, 111, 102, 32, 105, 110, 112, 117, 116] := by
  decide

/-- Claim C5 (amended): for a context whose offset does not exceed the
input length, the end-of-input parser succeeds consuming nothing — the
result position is the current location — if and only if the current
offset equals the input length, and otherwise fails at the current
position with the angle-bracketed EOF expectation string. -/
theorem eof_succeeds_iff_at_end (context : Context)
    (hle : context.location.index ≤ (context.input.length : Int)) :
    (context.location.index = (context.input.length : Int) →
      Bnb.eof.action context = .ok context.location eofString sentinelLocation []) ∧
    (context.location.index ≠ (context.input.length : Int) →
      Bnb.eof.action context = .fail context.location [eofString]) := by
  constructor
  · intro heq
    simp [Bnb.eof, Context.ok, Context.move, heq]
  · intro hne
    have hlt : context.location.index < (context.input.length : Int) := by omega
    simp [Bnb.eof, Context.fail, Context.move, hlt]

/-- Witness for claim C5: concrete at-end success and mid-input failure
of the end-of-input parser. -/
theorem eof_succeeds_iff_at_end_witness :
    Bnb.eof.action ⟨[], ⟨0, 1, 1⟩⟩ = .ok ⟨0, 1, 1⟩ eofString sentinelLocation [] ∧
    Bnb.eof.action ⟨[97], ⟨0, 1, 1⟩⟩ = .fail ⟨0, 1, 1⟩ [eofString] :=
  ⟨(eof_succeeds_iff_at_end ⟨[], ⟨0, 1, 1⟩⟩ (by decide)).1 (by decide),
   (eof_succeeds_iff_at_end ⟨[97], ⟨0, 1, 1⟩⟩ (by decide)).2 (by decide)⟩

/-- Counterexample to claim C6 as stated: a parser built from the
public always-fail constructor with expectations b then a surfaces its
expectation list through the non-throwing entry point unchanged —
neither sorted nor forced through deduplication. -/
theorem parse_expected_unsorted_counterexample :
    (Bnb.fail [[98], [97]] : Parser Unit).parse [] =
      .fail ⟨0, 1, 1⟩ [[98], [97]] ∧
    sortedDedup [[98], [97]] = false := by
  decide

/-- Claim C6 (amended): expectation lists produced by the union used in
merging are sorted and deduplicated, but the entry point returns the
furthest failure's expectation list exactly as the parser actions built
it, so a multi-element always-fail list can reach the caller unsorted or
with duplicates. -/
theorem parse_expected_propagation {A : Type} (a b : List Str) (p : Parser A)
    (s : Str) (floc : SourceLocation) (fexp : List Str)
    (h : p.parse s = .fail floc fexp) :
    sortedDedup (union a b) = true ∧
    (p.and Bnb.eof).action ⟨s, ⟨0, 1, 1⟩⟩ = .fail floc fexp := by
  refine ⟨sortedDedup_union a b, ?_⟩
  revert h
  simp only [Parser.parse]
  cases (p.and Bnb.eof).action ⟨s, ⟨0, 1, 1⟩⟩ with
  | ok l v f e => intro h; cases h
  | fail f e => intro h; cases h; rfl

/-- Witness for claim C6: concrete propagation of an always-fail
expectation list. -/
theorem parse_expected_propagation_witness :
    sortedDedup (union [[98]] [[97]]) = true ∧
    ((Bnb.fail [[98]] : Parser Unit).and Bnb.eof).action ⟨[], ⟨0, 1, 1⟩⟩ =
      .fail ⟨0, 1, 1⟩ [[98]] :=
  parse_expected_propagation [[98]] [[97]] (Bnb.fail [[98]] : Parser Unit) []
    ⟨0, 1, 1⟩ [[98]] (by decide)

theorem codePointGroups_length_sum :
    ∀ chunk : Str, ((codePointGroups chunk).map List.length).sum = chunk.length := by
  intro chunk
  induction chunk using codePointGroups.induct with
  | case1 => rfl
  | case2 u => rfl
  | case3 u v rest hpair ih =>
    rw [codePointGroups, if_pos hpair]
    simp [ih]
    omega
  | case4 u v rest hpair ih =>
    rw [codePointGroups, if_neg hpair]
    simp [ih]
    omega

theorem foldl_addStep_index :
    ∀ (gs : List (List Nat)) (l : SourceLocation),
      (gs.foldl SourceLocation.addStep l).index =
        l.index + ((gs.map List.length).sum : Int) := by
  intro gs
  induction gs with
  | nil => intro l; simp
  | cons g gs ih =>
    intro l
    rw [List.foldl_cons, ih]
    simp [SourceLocation.addStep]
    omega

theorem add_index (l : SourceLocation) (chunk : Str) :
    (l.add chunk).index = l.index + (chunk.length : Int) := by
  rw [SourceLocation.add, foldl_addStep_index, codePointGroups_length_sum]

theorem foldl_addStep_line_column :
    ∀ (gs : List (List Nat)) (l : SourceLocation), 1 ≤ l.line → 1 ≤ l.column →
      1 ≤ (gs.foldl SourceLocation.addStep l).line ∧
      1 ≤ (gs.foldl SourceLocation.addStep l).column := by
  intro gs
  induction gs with
  | nil => intro l h1 h2; exact ⟨h1, h2⟩
  | cons g gs ih =>
    intro l h1 h2
    rw [List.foldl_cons]
    refine ih _ ?_ ?_ <;> simp only [SourceLocation.addStep] <;> split <;> omega

/-- Claim C7: one step of the position-advance loop increments the
offset by the code point's encoded length in code units (two for a
surrogate pair, not a fixed one), increments the line and resets the
column to 1 exactly on a newline code point and increments the column on
any other code point; advancing over a whole chunk adds the chunk's
total encoded length to the offset; and moving a context to an offset
equal to the current offset takes the early-return branch and yields the
context's stored location itself. -/
theorem add_advances_by_code_points (l : SourceLocation) (ch : List Nat)
    (chunk : Str) (context : Context) :
    ((SourceLocation.addStep l ch).index = l.index + (ch.length : Int)) ∧
    (ch = newline →
      SourceLocation.addStep l ch = ⟨l.index + 1, l.line + 1, 1⟩) ∧
    (ch ≠ newline →
      SourceLocation.addStep l ch = ⟨l.index + ch.length, l.line, l.column + 1⟩) ∧
    ((l.add chunk).index = l.index + (chunk.length : Int)) ∧
    (context.move context.location.index = context.location) := by
  refine ⟨rfl, ?_, ?_, add_index l chunk, ?_⟩
  · intro hnl
    simp [SourceLocation.addStep, hnl, newline]
  · intro hnl
    simp [SourceLocation.addStep, hnl]
  · simp [Context.move]

/-- Witness for claim C7: a newline step, a surrogate-pair step and the
identity move discharged on concrete values. -/
theorem add_advances_by_code_points_witness :
    SourceLocation.addStep ⟨3, 2, 4⟩ [10] = ⟨3 + 1, 2 + 1, 1⟩ ∧
    SourceLocation.addStep ⟨3, 2, 4⟩ [55357, 56832] = ⟨3 + 2, 2, 4 + 1⟩ ∧
    Context.move ⟨[97], ⟨0, 1, 1⟩⟩ (0 : Int) = ⟨0, 1, 1⟩ :=
  ⟨(add_advances_by_code_points ⟨3, 2, 4⟩ [10] [] ⟨[], ⟨0, 1, 1⟩⟩).2.1 (by decide),
   (add_advances_by_code_points ⟨3, 2, 4⟩ [55357, 56832] [] ⟨[], ⟨0, 1, 1⟩⟩).2.2.1
     (by decide),
   (add_advances_by_code_points ⟨3, 2, 4⟩ [] [] ⟨[97], ⟨0, 1, 1⟩⟩).2.2.2.2⟩

/-- Claim C8 (code bug): the flag validation accepts the dotAll regexp
/./s and rejects an unsupported flag, and the engine run with the
regexp's own flags matches a newline — as the claim demands — yet the
parser built by the source fails on that very input, because the action
rebuilds the sticky regexp with only the ignoreCase flag preserved,
silently dropping the s, m and u flags it just accepted. -/
theorem match_drops_regexp_flags :
    matchRe dotAllRegExp = .ok (matchAction dotAllRegExp) ∧
    matchRe ⟨dotExec, [103], [46]⟩ = .error .unsupportedFlag ∧
    dotExec dotAllRegExp.flags [10] 0 = some 1 ∧
    (matchSpecAction dotAllRegExp).parse [10] = .ok [10] ∧
    (matchAction dotAllRegExp).parse [10] =
      .fail ⟨0, 1, 1⟩ [[47, 46, 47, 115]] := by
  refine ⟨rfl, rfl, rfl, ?_, ?_⟩ <;> decide

/-- Claim C9: a parse is a pure function of the parser and the input, so
two runs agree; for a lazily built parser, the first invocation resolves
the thunk and stores the resolved parser, after which the state is
stable, and both the first and every later run return exactly the
resolved parser's result. -/
theorem lazy_parse_deterministic {A : Type} (fn : Unit → Parser A) (s : Str)
    (p : Parser A) :
    p.parse s = p.parse s ∧
    (lazyParse fn none s).1 = (lazyParse fn (lazyParse fn none s).2 s).1 ∧
    (lazyParse fn (lazyParse fn none s).2 s).2 = (lazyParse fn none s).2 ∧
    (lazyParse fn none s).1 = (fn ()).parse s :=
  ⟨rfl, rfl, rfl, rfl⟩

theorem jsSlice_length_le (s : Str) (start stop : Int) (h0 : 0 ≤ start)
    (hle : start ≤ (s.length : Int)) :
    ((jsSlice s start stop).length : Int) + start ≤ (s.length : Int) := by
  rw [jsSlice]
  simp only [List.length_drop, List.length_take]
  split_ifs <;> omega

theorem move_LocInv (context : Context) (idx : Int)
    (h : LocInv context.input context.location) :
    LocInv context.input (context.move idx) := by
  rw [Context.move]
  split_ifs with hid
  · exact h
  · obtain ⟨h0, hlen, hline, hcol⟩ := h
    have hidx := add_index context.location
      (jsSlice context.input context.location.index idx)
    have hlc := foldl_addStep_line_column
      (codePointGroups (jsSlice context.input context.location.index idx))
      context.location hline hcol
    have hsl := jsSlice_length_le context.input context.location.index idx h0 hlen
    rw [SourceLocation.add] at hidx ⊢
    refine ⟨?_, ?_, hlc.1, hlc.2⟩ <;> rw [hidx] <;> omega

/-- Claim C10: the initial location of the entry point satisfies the
location invariant — offset between 0 and the input length, line and
column at least 1 — and the invariant is preserved by every move of a
context whose current location satisfies it; the location carried by a
success built with the ok primitive (whose furthest is the dedicated
sentinel) and the furthest carried by a failure built with the fail
primitive are both such moved locations. -/
theorem context_locations_invariant {A : Type} (s : Str) (context : Context)
    (idx : Int) (v : A) (es : List Str)
    (h : LocInv context.input context.location) :
    LocInv s ⟨0, 1, 1⟩ ∧
    LocInv context.input (context.move idx) ∧
    context.ok idx v = ActionResult.ok (context.move idx) v sentinelLocation [] ∧
    (context.fail idx es : ActionResult A) =
      ActionResult.fail (context.move idx) es := by
  refine ⟨?_, move_LocInv context idx h, rfl, rfl⟩
  refine ⟨le_refl 0, ?_, le_refl 1, le_refl 1⟩
  exact Int.natCast_nonneg s.length

/-- Witness for claim C10: the invariant instantiated on a concrete
one-character context moved to its end. -/
theorem context_locations_invariant_witness :
    LocInv [98] ⟨0, 1, 1⟩ ∧
    LocInv [97] (Context.move ⟨[97], ⟨0, 1, 1⟩⟩ 1) ∧
    Context.ok ⟨[97], ⟨0, 1, 1⟩⟩ 1 (97 : Nat) =
      ActionResult.ok (Context.move ⟨[97], ⟨0, 1, 1⟩⟩ 1) (97 : Nat)
        sentinelLocation [] ∧
    (Context.fail ⟨[97], ⟨0, 1, 1⟩⟩ 1 [[97]] : ActionResult Nat) =
      ActionResult.fail (Context.move ⟨[97], ⟨0, 1, 1⟩⟩ 1) [[97]] :=
  context_locations_invariant [98] ⟨[97], ⟨0, 1, 1⟩⟩ 1 (97 : Nat) [[97]]
    (by decide)

end Bnb
